import Mathlib

/-!
Verification of `invokeai/app/invocations/latent.py`.

The module is orchestration glue over an external diffusion library.  We give a
shallow embedding of its pure decision logic:

* tensors are modelled as a free term algebra `Tensor` recording the operations
  this module applies to them (`interpolate`, `zeros_like`), with a `size`
  function mirroring how those operations transform shapes; device moves
  (`.to(device)`, `.to("cpu")`) do not change tensor contents and are dropped;
* Python `dict`s are association lists (first entry for a key wins), with
  `{**a, **b}` merge semantics made explicit;
* Python `round` on a float is modelled as `round` on `ℚ`; the claims compare
  the code's rounding with itself, so tie-breaking conventions do not matter;
* fallible code paths (a Python exception such as `KeyError`, `TypeError` or
  `AttributeError`) are modelled by `Option`, `none` standing for the raise.
-/

namespace InvokeAI

/-- Free term algebra of the tensors this module manipulates.  `base` stands
for an externally produced tensor (fetched from the latents store) identified
by a tag with a known shape. -/
inductive Tensor where
  | base (tag : String) (shape : List ℕ)
  | interp (t : Tensor) (height width : ℕ) (mode : String) (antialias : Bool)
  | interpScale (t : Tensor) (scale_factor : ℚ) (mode : String) (antialias : Bool)
  | zeros_like (t : Tensor)
deriving DecidableEq, Repr

/-- `torch.Tensor.size()`: `interpolate` with an explicit `size=(h, w)` keeps
the leading (batch, channel) dimensions and replaces the spatial ones; with a
`scale_factor` it floors each spatial dimension times the factor;
`zeros_like` keeps the shape. -/
def Tensor.size : Tensor → List ℕ
  | .base _ shape => shape
  | .interp t h w _ _ => t.size.take 2 ++ [h, w]
  | .interpScale t f _ _ => t.size.take 2 ++ (t.size.drop 2).map (fun d => (⌊(d : ℚ) * f⌋).toNat)
  | .zeros_like t => t.size

/-- `LatentsField`: the name of a stored latents tensor and the seed used to
generate it (the seed is `Optional[int]` in the source). -/
structure LatentsField where
  latents_name : String
  seed : Option ℤ
deriving DecidableEq, Repr

/-- `LatentsOutput`: what latents-producing invocations return. -/
structure LatentsOutput where
  latents : LatentsField
  width : ℕ
  height : ℕ
deriving DecidableEq, Repr

/-- `build_latents_output(latents_name, latents, seed)`. -/
def build_latents_output (latents_name : String) (latents : Tensor) (seed : Option ℤ) :
    LatentsOutput :=
  { latents := { latents_name := latents_name, seed := seed },
    width := latents.size.getD 3 0 * 8,
    height := latents.size.getD 2 0 * 8 }

/-- The state of a diffusers scheduler as read by `init_scheduler`:
`scheduler.order`, `scheduler.config.num_train_timesteps`, and
`scheduler.timesteps` as produced by the external
`scheduler.set_timesteps(num_inference_steps, device)` call (a descending
sequence for real schedulers, kept abstract here).  `cpu_only` only selects the
device passed to `set_timesteps` and does not influence the windowing. -/
structure SchedulerState where
  order : ℕ
  num_train_timesteps : ℕ
  timesteps : List ℤ
  cpu_only : Bool
deriving DecidableEq, Repr

/-- `int(round(num_train_timesteps * (1 - denoising)))`. -/
def round_val (num_train_timesteps : ℕ) (denoising : ℚ) : ℤ :=
  round ((num_train_timesteps : ℚ) * (1 - denoising))

/-- The triple returned by `DenoiseLatentsInvocation.init_scheduler`. -/
structure InitSchedulerResult where
  num_inference_steps : ℕ
  timesteps : List ℤ
  init_timestep : List ℤ
deriving DecidableEq, Repr

/-- `DenoiseLatentsInvocation.init_scheduler(scheduler, device, steps,
denoising_start, denoising_end)`.  `steps` is consumed by the external
`set_timesteps` call, whose output is the `timesteps` field of
`scheduler`. -/
def init_scheduler (scheduler : SchedulerState) (denoising_start denoising_end : ℚ) :
    InitSchedulerResult :=
  let timesteps := scheduler.timesteps
  let t_start_val := round_val scheduler.num_train_timesteps denoising_start
  let t_start_idx := timesteps.countP (fun ts => decide (t_start_val ≤ ts))
  let timesteps := timesteps.drop t_start_idx
  let timesteps := if scheduler.order = 2 ∧ 0 < t_start_idx then timesteps.drop 1 else timesteps
  let init_timestep := timesteps.take 1
  let t_end_val := round_val scheduler.num_train_timesteps denoising_end
  let t_end_idx := timesteps.countP (fun ts => decide (t_end_val ≤ ts))
  let t_end_idx := if scheduler.order = 2 ∧ 0 < t_end_idx then t_end_idx + 1 else t_end_idx
  let timesteps := timesteps.take t_end_idx
  let num_inference_steps := timesteps.length
  let num_inference_steps :=
    if scheduler.order = 2 then (num_inference_steps + num_inference_steps % 2) / 2
    else num_inference_steps
  { num_inference_steps := num_inference_steps,
    timesteps := timesteps,
    init_timestep := init_timestep }

/-- C3: the `num_inference_steps` returned by `init_scheduler` is the length of
the windowed timestep list, except that a second-order scheduler halves it,
rounding up (`len + len % 2`, integer-divided by `2`). -/
theorem init_scheduler_num_inference_steps (scheduler : SchedulerState)
    (denoising_start denoising_end : ℚ) :
    (init_scheduler scheduler denoising_start denoising_end).num_inference_steps =
      (let L := (init_scheduler scheduler denoising_start denoising_end).timesteps.length
       if scheduler.order = 2 then (L + L % 2) / 2 else L) := by
  by_cases h : scheduler.order = 2 <;> simp [init_scheduler, h]

/-- In a descending list, taking the first `countP (c ≤ ·)` elements is the
same as filtering for `c ≤ ·`: the satisfying elements form a prefix. -/
theorem take_countP_of_sorted (c : ℤ) :
    ∀ (l : List ℤ), l.Pairwise (· ≥ ·) →
      l.take (l.countP (fun ts => decide (c ≤ ts))) = l.filter (fun ts => decide (c ≤ ts)) := by
  intro l
  induction l with
  | nil => intro _; rfl
  | cons a l ih =>
    intro hs
    rw [List.pairwise_cons] at hs
    obtain ⟨ha, hl⟩ := hs
    by_cases hc : c ≤ a
    · rw [List.countP_cons, List.filter_cons]
      simp only [hc, decide_eq_true_eq, if_true, decide_True, List.take_succ_cons]
      rw [ih hl]
    · have hzero : l.countP (fun ts => decide (c ≤ ts)) = 0 := by
        rw [List.countP_eq_zero]
        intro b hb
        simp only [decide_eq_true_eq]
        exact fun hcb => hc (le_trans hcb (ha b hb))
      have hnil : l.filter (fun ts => decide (c ≤ ts)) = [] := by
        rw [List.filter_eq_nil_iff]
        intro b hb
        simp only [decide_eq_true_eq]
        exact fun hcb => hc (le_trans hcb (ha b hb))
      rw [List.countP_cons, List.filter_cons]
      simp [hc, hzero, hnil]

/-- In a descending list, dropping the first `countP (c ≤ ·)` elements is the
same as filtering for `· < c`. -/
theorem drop_countP_of_sorted (c : ℤ) :
    ∀ (l : List ℤ), l.Pairwise (· ≥ ·) →
      l.drop (l.countP (fun ts => decide (c ≤ ts))) = l.filter (fun ts => decide (ts < c)) := by
  intro l
  induction l with
  | nil => intro _; rfl
  | cons a l ih =>
    intro hs
    rw [List.pairwise_cons] at hs
    obtain ⟨ha, hl⟩ := hs
    by_cases hc : c ≤ a
    · have hna : ¬ a < c := not_lt.mpr hc
      rw [List.countP_cons, List.filter_cons]
      simp only [hc, hna, decide_eq_true_eq, if_true, if_false, decide_True,
        List.drop_succ_cons]
      exact ih hl
    · have hzero : l.countP (fun ts => decide (c ≤ ts)) = 0 := by
        rw [List.countP_eq_zero]
        intro b hb
        simp only [decide_eq_true_eq]
        exact fun hcb => hc (le_trans hcb (ha b hb))
      have hself : l.filter (fun ts => decide (ts < c)) = l := by
        rw [List.filter_eq_self]
        intro b hb
        simp only [decide_eq_true_eq]
        exact lt_of_le_of_lt (ha b hb) (not_le.mp hc)
      rw [List.countP_cons, List.filter_cons]
      simp [hc, hzero, hself, not_le.mp hc]

/-- C1: for a first-order scheduler with a descending timestep list,
`init_scheduler` returns the suffix-then-prefix window: it drops from the front
exactly the timesteps `ts` with `t_start_val ≤ ts`, keeps from the remainder
exactly the timesteps `ts` with `t_end_val ≤ ts` in their original order, and
`init_timestep` is the first element (if any) of the start-trimmed list. -/
theorem init_scheduler_first_order (scheduler : SchedulerState)
    (denoising_start denoising_end : ℚ)
    (horder : scheduler.order = 1)
    (hsorted : scheduler.timesteps.Pairwise (· ≥ ·)) :
    (init_scheduler scheduler denoising_start denoising_end).timesteps =
      (scheduler.timesteps.filter
          (fun ts => decide (ts < round_val scheduler.num_train_timesteps denoising_start))).filter
        (fun ts => decide (round_val scheduler.num_train_timesteps denoising_end ≤ ts)) ∧
    (init_scheduler scheduler denoising_start denoising_end).init_timestep =
      (scheduler.timesteps.filter
          (fun ts => decide (ts < round_val scheduler.num_train_timesteps denoising_start))).take 1 := by
  have h2 : ¬ scheduler.order = 2 := by rw [horder]; decide
  have hdrop := drop_countP_of_sorted
    (round_val scheduler.num_train_timesteps denoising_start) scheduler.timesteps hsorted
  have hsorted' :
      (scheduler.timesteps.filter
        (fun ts =>
          decide (ts < round_val scheduler.num_train_timesteps denoising_start))).Pairwise
        (· ≥ ·) :=
    List.Pairwise.filter _ hsorted
  have htake := take_countP_of_sorted
    (round_val scheduler.num_train_timesteps denoising_end) _ hsorted'
  constructor
  · have hshape :
        (init_scheduler scheduler denoising_start denoising_end).timesteps =
          (scheduler.timesteps.drop
              (scheduler.timesteps.countP
                (fun ts =>
                  decide (round_val scheduler.num_train_timesteps denoising_start ≤ ts)))).take
            ((scheduler.timesteps.drop
                (scheduler.timesteps.countP
                  (fun ts =>
                    decide (round_val scheduler.num_train_timesteps denoising_start ≤ ts)))).countP
              (fun ts =>
                decide (round_val scheduler.num_train_timesteps denoising_end ≤ ts))) := by
      simp [init_scheduler, h2]
    rw [hshape, hdrop]
    exact htake
  · have hshape :
        (init_scheduler scheduler denoising_start denoising_end).init_timestep =
          (scheduler.timesteps.drop
              (scheduler.timesteps.countP
                (fun ts =>
                  decide (round_val scheduler.num_train_timesteps denoising_start ≤ ts)))).take 1 := by
      simp [init_scheduler, h2]
    rw [hshape, hdrop]

/-- Witness for C1 at a concrete first-order scheduler: ten descending
timesteps, `denoising_start = 1/4`, `denoising_end = 3/4`. -/
theorem init_scheduler_first_order_witness :
    (({ order := 1, num_train_timesteps := 1000,
        timesteps := [901, 801, 701, 601, 501, 401, 301, 201, 101, 1],
        cpu_only := false } : SchedulerState).timesteps.Pairwise (· ≥ ·)) ∧
    ((init_scheduler
        { order := 1, num_train_timesteps := 1000,
          timesteps := [901, 801, 701, 601, 501, 401, 301, 201, 101, 1],
          cpu_only := false } (1/4) (3/4)).timesteps =
      (([901, 801, 701, 601, 501, 401, 301, 201, 101, 1] : List ℤ).filter
          (fun ts => decide (ts < round_val 1000 (1/4)))).filter
        (fun ts => decide (round_val 1000 (3/4) ≤ ts)) ∧
     (init_scheduler
        { order := 1, num_train_timesteps := 1000,
          timesteps := [901, 801, 701, 601, 501, 401, 301, 201, 101, 1],
          cpu_only := false } (1/4) (3/4)).init_timestep =
      (([901, 801, 701, 601, 501, 401, 301, 201, 101, 1] : List ℤ).filter
          (fun ts => decide (ts < round_val 1000 (1/4)))).take 1) :=
  ⟨by decide,
   init_scheduler_first_order
     { order := 1, num_train_timesteps := 1000,
       timesteps := [901, 801, 701, 601, 501, 401, 301, 201, 101, 1],
       cpu_only := false } (1/4) (3/4) rfl (by decide)⟩

/-- A configuration value as stored in a scheduler config dict.  `cfg` nests a
whole config, as happens for the `"_backup"` entry. -/
inductive CfgVal where
  | str (s : String)
  | int (n : ℤ)
  | bool (b : Bool)
  | cfg (c : List (String × CfgVal))

/-- Python `d[k]` / `d.get(k)` on an association list: first entry wins. -/
def lookupKey {α : Type} (k : String) : List (String × α) → Option α
  | [] => none
  | (k', v) :: rest => if k' = k then some v else lookupKey k rest

/-- First-some choice, the lookup semantics of Python dict merge. -/
def optOr {α : Type} : Option α → Option α → Option α
  | some v, _ => some v
  | none, y => y

/-- Python `{**a, **b}`: keys of `a` in order with values overridden by `b`,
followed by the keys of `b` not in `a`. -/
def dictMerge {α : Type} (a b : List (String × α)) : List (String × α) :=
  a.map (fun kv => (kv.1, (lookupKey kv.1 b).getD kv.2)) ++
    b.filter (fun kv => (lookupKey kv.1 a).isNone)

theorem lookupKey_append {α : Type} (k : String) (l₁ l₂ : List (String × α)) :
    lookupKey k (l₁ ++ l₂) = optOr (lookupKey k l₁) (lookupKey k l₂) := by
  induction l₁ with
  | nil => rfl
  | cons kv rest ih =>
    by_cases h : kv.1 = k
    · simp [lookupKey, h, optOr]
    · simp [lookupKey, h, ih]

theorem lookupKey_override {α : Type} (k : String) (a b : List (String × α)) :
    lookupKey k (a.map (fun kv => (kv.1, (lookupKey kv.1 b).getD kv.2))) =
      (lookupKey k a).map (fun v => (lookupKey k b).getD v) := by
  induction a with
  | nil => rfl
  | cons kv rest ih =>
    by_cases h : kv.1 = k
    · simp [lookupKey, h]
    · simp [lookupKey, h, ih]

theorem lookupKey_filter_keys {α : Type} (k : String) (a b : List (String × α))
    (ha : (lookupKey k a).isNone = true) :
    lookupKey k (b.filter (fun kv => (lookupKey kv.1 a).isNone)) = lookupKey k b := by
  induction b with
  | nil => rfl
  | cons kv rest ih =>
    by_cases h : kv.1 = k
    · subst h
      simp [List.filter_cons, ha, lookupKey]
    · by_cases hkeep : (lookupKey kv.1 a).isNone
      · simp [List.filter_cons, hkeep, lookupKey, h, ih]
      · simp [List.filter_cons, hkeep, lookupKey, h, ih]

theorem lookupKey_filter_keys_absent {α : Type} (k : String) (a b : List (String × α))
    (ha : ¬ (lookupKey k a).isNone = true) :
    lookupKey k (b.filter (fun kv => (lookupKey kv.1 a).isNone)) = none := by
  induction b with
  | nil => rfl
  | cons kv rest ih =>
    by_cases h : kv.1 = k
    · subst h
      simp only [List.filter_cons]
      rw [if_neg (by simpa using ha)]
      exact ih
    · by_cases hkeep : (lookupKey kv.1 a).isNone
      · simp [List.filter_cons, hkeep, lookupKey, h, ih]
      · simp [List.filter_cons, hkeep, ih]

/-- Lookup in a Python dict merge `{**a, **b}`: `b` wins, then `a`. -/
theorem lookupKey_dictMerge {α : Type} (k : String) (a b : List (String × α)) :
    lookupKey k (dictMerge a b) = optOr (lookupKey k b) (lookupKey k a) := by
  rw [dictMerge, lookupKey_append, lookupKey_override]
  by_cases ha : (lookupKey k a).isNone
  · rw [lookupKey_filter_keys k a b ha]
    rw [Option.isNone_iff_eq_none] at ha
    rw [ha]
    cases lookupKey k b <;> rfl
  · rw [lookupKey_filter_keys_absent k a b ha]
    rw [Option.isNone_iff_eq_none] at ha
    obtain ⟨va, hva⟩ := Option.ne_none_iff_exists'.mp ha
    rw [hva]
    cases lookupKey k b <;> rfl

/-- An entry of `SCHEDULER_MAP`: the scheduler class (identified by name, the
construction itself being external) and the extra config to merge in. -/
structure SchedulerEntry where
  klass : String
  extra_config : List (String × CfgVal)

/-- The `_backup` restore step of `get_scheduler`: if the original config holds
a `"_backup"` sub-config, start from that; a non-dict `"_backup"` value makes
the subsequent `{** ...}` splat raise (`none`). -/
def restore_backup (scheduler_config : List (String × CfgVal)) :
    Option (List (String × CfgVal)) :=
  match lookupKey "_backup" scheduler_config with
  | none => some scheduler_config
  | some (.cfg c) => some c
  | some _ => none

/-- `get_scheduler(context, scheduler_info, scheduler_name)`, modelling the
scheduler object as the pair of its class and the config passed to
`from_config`.  `SCHEDULER_MAP` is supplied by an external module and appears
as a parameter; `SCHEDULER_MAP["ddim"]` is evaluated unconditionally as the
default of `.get`, so a map without `"ddim"` raises (`none`).  The original
model's config is fetched from the model manager (external) and appears as the
`orig_config` parameter.  The `uses_inpainting_model` patch does not affect the
class/config pair. -/
def get_scheduler (smap : List (String × SchedulerEntry))
    (orig_config : List (String × CfgVal)) (scheduler_name : String) :
    Option (String × List (String × CfgVal)) :=
  match lookupKey "ddim" smap with
  | none => none
  | some ddim =>
    let entry := (lookupKey scheduler_name smap).getD ddim
    match restore_backup orig_config with
    | none => none
    | some scheduler_config =>
      some (entry.klass,
        dictMerge (dictMerge scheduler_config entry.extra_config)
          [("_backup", CfgVal.cfg scheduler_config)])

/-- C2: `get_scheduler` maps the name to its `SCHEDULER_MAP` entry (falling
back to the `"ddim"` entry for unknown names), restores a `"_backup"`
sub-config when present, and builds the scheduler from that config overridden
by the entry's extra config, with the pre-merge config stashed under
`"_backup"`. -/
theorem get_scheduler_spec (smap : List (String × SchedulerEntry))
    (orig_config : List (String × CfgVal)) (scheduler_name : String)
    (ddim : SchedulerEntry) (base : List (String × CfgVal)) (k : String)
    (hd : lookupKey "ddim" smap = some ddim)
    (hb : restore_backup orig_config = some base) :
    (get_scheduler smap orig_config scheduler_name).map Prod.fst =
      some ((lookupKey scheduler_name smap).getD ddim).klass ∧
    (lookupKey scheduler_name smap = none →
      (get_scheduler smap orig_config scheduler_name).map Prod.fst = some ddim.klass) ∧
    (get_scheduler smap orig_config scheduler_name).bind (fun r => lookupKey k r.2) =
      (if k = "_backup" then some (CfgVal.cfg base)
       else optOr (lookupKey k ((lookupKey scheduler_name smap).getD ddim).extra_config)
         (lookupKey k base)) := by
  have hval : get_scheduler smap orig_config scheduler_name =
      some (((lookupKey scheduler_name smap).getD ddim).klass,
        dictMerge (dictMerge base ((lookupKey scheduler_name smap).getD ddim).extra_config)
          [("_backup", CfgVal.cfg base)]) := by
    rw [get_scheduler, hd]
    simp only [hb]
  refine ⟨by rw [hval]; rfl, fun hmiss => by rw [hval, hmiss]; rfl, ?_⟩
  rw [hval]
  show lookupKey k _ = _
  rw [lookupKey_dictMerge, lookupKey_dictMerge]
  by_cases hk : k = "_backup"
  · subst hk
    simp [lookupKey, optOr]
  · rw [if_neg hk]
    have hne : ¬ "_backup" = k := fun h => hk h.symm
    have : lookupKey k [("_backup", CfgVal.cfg base)] = none := by
      simp only [lookupKey]
      rw [if_neg hne]
    rw [this]
    rfl

/-- Witness for C2: a two-entry map, an unknown scheduler name exercising the
`"ddim"` fallback, and an original config with a `"_backup"` sub-config. -/
theorem get_scheduler_spec_witness :
    (lookupKey "ddim"
        [("ddim", ({ klass := "DDIMScheduler", extra_config := [("cs", CfgVal.bool false)] } :
            SchedulerEntry)),
         ("euler", { klass := "EulerDiscreteScheduler", extra_config := [] })] =
      some { klass := "DDIMScheduler", extra_config := [("cs", CfgVal.bool false)] }) ∧
    ((get_scheduler
        [("ddim", { klass := "DDIMScheduler", extra_config := [("cs", CfgVal.bool false)] }),
         ("euler", { klass := "EulerDiscreteScheduler", extra_config := [] })]
        [("beta", CfgVal.int 1), ("_backup", CfgVal.cfg [("beta", CfgVal.int 2)])]
        "lms").bind (fun r => lookupKey "beta" r.2) =
      (if "beta" = "_backup" then some (CfgVal.cfg [("beta", CfgVal.int 2)])
       else optOr
         (lookupKey "beta"
           ((lookupKey "lms"
              [("ddim",
                 ({ klass := "DDIMScheduler", extra_config := [("cs", CfgVal.bool false)] } :
                   SchedulerEntry)),
               ("euler", { klass := "EulerDiscreteScheduler", extra_config := [] })]).getD
             { klass := "DDIMScheduler",
               extra_config := [("cs", CfgVal.bool false)] }).extra_config)
         (lookupKey "beta" [("beta", CfgVal.int 2)]))) :=
  ⟨rfl,
   (get_scheduler_spec
     [("ddim", { klass := "DDIMScheduler", extra_config := [("cs", CfgVal.bool false)] }),
      ("euler", { klass := "EulerDiscreteScheduler", extra_config := [] })]
     [("beta", CfgVal.int 1), ("_backup", CfgVal.cfg [("beta", CfgVal.int 2)])]
     "lms"
     { klass := "DDIMScheduler", extra_config := [("cs", CfgVal.bool false)] }
     [("beta", CfgVal.int 2)] "beta" rfl rfl).2.2⟩

/-- A control weight, `Union[float, List[float]]` in the source. -/
inductive ControlWeight where
  | single (w : ℚ)
  | perStep (ws : List ℚ)
deriving DecidableEq, Repr

/-- `ControlField` is declared in `controlnet_image_processors.py`, outside
this module; modelled with exactly the attributes `prep_control_data` reads
(`control_model.model_name`, `control_model.base_model`, `image.image_name`,
`control_weight`, `begin_step_percent`, `end_step_percent`, `control_mode`,
`resize_mode`). -/
structure ControlField where
  image_name : String
  model_name : String
  base_model : String
  control_weight : ControlWeight
  begin_step_percent : ℚ
  end_step_percent : ℚ
  control_mode : String
  resize_mode : String
deriving DecidableEq, Repr

/-- The external model-manager handle for a ControlNet model, identified by
the name/base pair passed to `get_model`. -/
structure ControlNetModelHandle where
  model_name : String
  base_model : String
deriving DecidableEq, Repr

/-- The external `prepare_control_image` call, modelled as the record of the
arguments passed to it (the returned tensor is opaque and determined by
them; `device`/`dtype` only place it in memory). -/
structure PreparedControlImage where
  image : String
  do_classifier_free_guidance : Bool
  width : ℕ
  height : ℕ
  control_mode : String
  resize_mode : String
deriving DecidableEq, Repr

/-- `ControlNetData` as assembled by `prep_control_data`. -/
structure ControlNetData where
  model : ControlNetModelHandle
  image_tensor : PreparedControlImage
  weight : ControlWeight
  begin_step_percent : ℚ
  end_step_percent : ℚ
  control_mode : String
  resize_mode : String
deriving DecidableEq, Repr

/-- An element of a Python `control` list: a `ControlField` or any other
value (on which attribute access raises). -/
inductive ControlVal where
  | cf (c : ControlField)
  | nonCF
deriving DecidableEq, Repr

/-- The possible Python shapes of the `control_input` argument. -/
inductive ControlInput where
  | pyNone
  | field (c : ControlField)
  | pylist (vs : List ControlVal)
  | otherValue
deriving DecidableEq, Repr

/-- The `control_list` selection at the top of `prep_control_data`,
mirroring the `if`/`elif` chain: `None`, the empty list, a lone
`ControlField`, a non-empty list headed by a `ControlField`, anything
else. -/
def computeControlList : ControlInput → Option (List ControlVal)
  | .pyNone => none
  | .pylist [] => none
  | .field c => some [.cf c]
  | .pylist (v :: vs) =>
    match v with
    | .cf _ => some (v :: vs)
    | .nonCF => none
  | .otherValue => none

/-- The body of the `for control_info in control_list` loop for one
`ControlField`: fetch the model (external), prepare the control image at the
8:1 scaled size, and assemble a `ControlNetData`. -/
def controlNetDataOf (latents_shape : List ℕ) (do_classifier_free_guidance : Bool)
    (control_info : ControlField) : ControlNetData :=
  { model := { model_name := control_info.model_name, base_model := control_info.base_model },
    image_tensor :=
      { image := control_info.image_name,
        do_classifier_free_guidance := do_classifier_free_guidance,
        width := latents_shape.getD 3 0 * 8,
        height := latents_shape.getD 2 0 * 8,
        control_mode := control_info.control_mode,
        resize_mode := control_info.resize_mode },
    weight := control_info.control_weight,
    begin_step_percent := control_info.begin_step_percent,
    end_step_percent := control_info.end_step_percent,
    control_mode := control_info.control_mode,
    resize_mode := control_info.resize_mode }

/-- One loop iteration; a non-`ControlField` element raises at the first
attribute access (`none`). -/
def toControlNetData (latents_shape : List ℕ) (do_classifier_free_guidance : Bool) :
    ControlVal → Option ControlNetData
  | .nonCF => none
  | .cf c => some (controlNetDataOf latents_shape do_classifier_free_guidance c)

/-- The loop over `control_list`, appending one `ControlNetData` per entry. -/
def processControlList (latents_shape : List ℕ) (do_classifier_free_guidance : Bool) :
    List ControlVal → Option (List ControlNetData)
  | [] => some []
  | v :: vs =>
    match toControlNetData latents_shape do_classifier_free_guidance v with
    | none => none
    | some item =>
      (processControlList latents_shape do_classifier_free_guidance vs).map
        (fun rest => item :: rest)

/-- `DenoiseLatentsInvocation.prep_control_data`.  The outer `Option` models a
Python raise; the inner one distinguishes the `None` result from a list. -/
def prep_control_data (control_input : ControlInput) (latents_shape : List ℕ)
    (do_classifier_free_guidance : Bool) : Option (Option (List ControlNetData)) :=
  match computeControlList control_input with
  | none => some none
  | some control_list =>
    (processControlList latents_shape do_classifier_free_guidance control_list).map some

theorem processControlList_map_cf (latents_shape : List ℕ) (d : Bool)
    (cs : List ControlField) :
    processControlList latents_shape d (cs.map ControlVal.cf) =
      some (cs.map (controlNetDataOf latents_shape d)) := by
  induction cs with
  | nil => rfl
  | cons c cs ih => simp [processControlList, toControlNetData, ih]

/-- C4: control input is optional — `None`, the empty list, and values that
are neither a `ControlField` nor a list headed by one all yield no control
data; a lone `ControlField` behaves as a one-element list; a non-empty list of
`ControlField`s yields one `ControlNetData` per field in order, each carrying
that field's weight, begin/end step percents, control mode and resize mode. -/
theorem prep_control_data_optional (c : ControlField) (cs : List ControlField)
    (vs : List ControlVal) (latents_shape : List ℕ) (d : Bool) :
    prep_control_data .pyNone latents_shape d = some none ∧
    prep_control_data (.pylist []) latents_shape d = some none ∧
    prep_control_data .otherValue latents_shape d = some none ∧
    prep_control_data (.pylist (.nonCF :: vs)) latents_shape d = some none ∧
    prep_control_data (.field c) latents_shape d =
      prep_control_data (.pylist [.cf c]) latents_shape d ∧
    prep_control_data (.pylist ((c :: cs).map ControlVal.cf)) latents_shape d =
      some (some ((c :: cs).map (controlNetDataOf latents_shape d))) ∧
    (∀ c' : ControlField,
      (controlNetDataOf latents_shape d c').weight = c'.control_weight ∧
      (controlNetDataOf latents_shape d c').begin_step_percent = c'.begin_step_percent ∧
      (controlNetDataOf latents_shape d c').end_step_percent = c'.end_step_percent ∧
      (controlNetDataOf latents_shape d c').control_mode = c'.control_mode ∧
      (controlNetDataOf latents_shape d c').resize_mode = c'.resize_mode) :=
  ⟨rfl, rfl, rfl, rfl, rfl,
   by rw [prep_control_data]
      show (processControlList latents_shape d ((c :: cs).map ControlVal.cf)).map some = _
      rw [processControlList_map_cf]
      rfl,
   fun _ => ⟨rfl, rfl, rfl, rfl, rfl⟩⟩

theorem processControlList_sizes (latents_shape : List ℕ) (d : Bool) :
    ∀ (vs : List ControlVal) (l : List ControlNetData),
      processControlList latents_shape d vs = some l →
      ∀ x ∈ l, x.image_tensor.width = latents_shape.getD 3 0 * 8 ∧
        x.image_tensor.height = latents_shape.getD 2 0 * 8 := by
  intro vs
  induction vs with
  | nil =>
    intro l h x hx
    simp only [processControlList] at h
    cases h
    exact absurd hx (List.not_mem_nil x)
  | cons v vs ih =>
    intro l h x hx
    cases v with
    | nonCF => exact absurd h (by simp [processControlList, toControlNetData])
    | cf c =>
      simp only [processControlList, toControlNetData] at h
      cases hrest : processControlList latents_shape d vs with
      | none => rw [hrest] at h; exact absurd h (by simp)
      | some rest =>
        rw [hrest] at h
        simp only [Option.map_some'] at h
        cases h
        rcases List.mem_cons.mp hx with rfl | hx'
        · exact ⟨rfl, rfl⟩
        · exact ih rest hrest x hx'

/-- C5: every `ControlNetData` produced by `prep_control_data` carries a
control image prepared at the fixed 8:1 pixel-to-latent scale — target width
`latents_shape[3] * 8`, target height `latents_shape[2] * 8`. -/
theorem prep_control_data_eight_to_one (control_input : ControlInput)
    (latents_shape : List ℕ) (d : Bool) (l : List ControlNetData) (x : ControlNetData)
    (h : prep_control_data control_input latents_shape d = some (some l))
    (hx : x ∈ l) :
    x.image_tensor.width = latents_shape.getD 3 0 * 8 ∧
    x.image_tensor.height = latents_shape.getD 2 0 * 8 := by
  rw [prep_control_data] at h
  cases hc : computeControlList control_input with
  | none =>
    rw [hc] at h
    have h' : (some (none : Option (List ControlNetData)) :
        Option (Option (List ControlNetData))) = some (some l) := h
    exact absurd h' (by simp)
  | some cl =>
    rw [hc] at h
    have h' : (processControlList latents_shape d cl).map some = some (some l) := h
    cases hp : processControlList latents_shape d cl with
    | none => rw [hp] at h'; exact absurd h' (by simp)
    | some l' =>
      rw [hp] at h'
      simp only [Option.map_some', Option.some.injEq] at h'
      cases h'
      exact processControlList_sizes latents_shape d cl _ hp x hx

/-- A sample control field used by concrete witnesses. -/
def sampleControlField : ControlField :=
  { image_name := "img0", model_name := "canny", base_model := "sd-1",
    control_weight := .single 1, begin_step_percent := 0, end_step_percent := 1,
    control_mode := "balanced", resize_mode := "just_resize" }

/-- Witness for C5: one control field against a `1×4×32×48` latents shape. -/
theorem prep_control_data_eight_to_one_witness :
    (controlNetDataOf [1, 4, 32, 48] true sampleControlField).image_tensor.width =
      ([1, 4, 32, 48] : List ℕ).getD 3 0 * 8 ∧
    (controlNetDataOf [1, 4, 32, 48] true sampleControlField).image_tensor.height =
      ([1, 4, 32, 48] : List ℕ).getD 2 0 * 8 :=
  prep_control_data_eight_to_one (.field sampleControlField) [1, 4, 32, 48] true
    [controlNetDataOf [1, 4, 32, 48] true sampleControlField]
    (controlNetDataOf [1, 4, 32, 48] true sampleControlField) rfl (by simp)

/-- The slice of `InvocationContext` read by the pure logic modelled here:
the graph execution state id and the latents store contents
(`context.services.latents.get`). -/
structure InvocationContext where
  graph_execution_state_id : String
  store : String → Tensor

/-- A `context.services.latents.save(name, tensor)` effect. -/
structure SavedLatents where
  name : String
  value : Tensor
deriving DecidableEq, Repr

/-- `ResizeLatentsInvocation`: resizes latents to explicit width/height in
pixels, floor-divided by 8. -/
structure ResizeLatentsInvocation where
  id : String
  latents : LatentsField
  width : ℕ
  height : ℕ
  mode : String
  antialias : Bool
deriving DecidableEq, Repr

/-- `ResizeLatentsInvocation.invoke`: the `.to(device)` / `.to("cpu")` moves do
not change tensor contents and are dropped; the save is returned alongside the
output. -/
def ResizeLatentsInvocation.invoke (self : ResizeLatentsInvocation)
    (context : InvocationContext) : SavedLatents × LatentsOutput :=
  let latents := context.store self.latents.latents_name
  let resized_latents :=
    Tensor.interp latents (self.height / 8) (self.width / 8) self.mode
      (if self.mode = "bilinear" ∨ self.mode = "bicubic" then self.antialias else false)
  let name := context.graph_execution_state_id ++ "__" ++ self.id
  ({ name := name, value := resized_latents },
   build_latents_output name resized_latents self.latents.seed)

/-- `ScaleLatentsInvocation`: scales latents by a factor. -/
structure ScaleLatentsInvocation where
  id : String
  latents : LatentsField
  scale_factor : ℚ
  mode : String
  antialias : Bool
deriving DecidableEq, Repr

/-- `ScaleLatentsInvocation.invoke`. -/
def ScaleLatentsInvocation.invoke (self : ScaleLatentsInvocation)
    (context : InvocationContext) : SavedLatents × LatentsOutput :=
  let latents := context.store self.latents.latents_name
  let resized_latents :=
    Tensor.interpScale latents self.scale_factor self.mode
      (if self.mode = "bilinear" ∨ self.mode = "bicubic" then self.antialias else false)
  let name := context.graph_execution_state_id ++ "__" ++ self.id
  ({ name := name, value := resized_latents },
   build_latents_output name resized_latents self.latents.seed)

/-- C6: `ResizeLatentsInvocation.invoke` interpolates the stored tensor to
spatial size `(height // 8, width // 8)` in the selected mode, saves the
result under `"<graph_execution_state_id>__<node id>"`, and returns a
`LatentsOutput` whose seed is the input latents field's seed. -/
theorem resize_latents_invoke_spec (self : ResizeLatentsInvocation)
    (context : InvocationContext) :
    (self.invoke context).1.name = context.graph_execution_state_id ++ "__" ++ self.id ∧
    (self.invoke context).1.value =
      Tensor.interp (context.store self.latents.latents_name)
        (self.height / 8) (self.width / 8) self.mode
        (if self.mode = "bilinear" ∨ self.mode = "bicubic" then self.antialias else false) ∧
    (self.invoke context).2 =
      build_latents_output (context.graph_execution_state_id ++ "__" ++ self.id)
        (self.invoke context).1.value self.latents.seed ∧
    (self.invoke context).2.latents.seed = self.latents.seed :=
  ⟨rfl, rfl, rfl, rfl⟩

/-- C9: in any interpolation mode other than `"bilinear"` and `"bicubic"`,
`interpolate` is called with `antialias=False`, so the results of
`ResizeLatentsInvocation` and `ScaleLatentsInvocation` are independent of the
`antialias` field. -/
theorem interpolate_antialias_independent (r : ResizeLatentsInvocation)
    (s : ScaleLatentsInvocation) (context : InvocationContext) (a₁ a₂ b₁ b₂ : Bool)
    (hr1 : r.mode ≠ "bilinear") (hr2 : r.mode ≠ "bicubic")
    (hs1 : s.mode ≠ "bilinear") (hs2 : s.mode ≠ "bicubic") :
    ({ r with antialias := a₁ } : ResizeLatentsInvocation).invoke context =
      ({ r with antialias := a₂ } : ResizeLatentsInvocation).invoke context ∧
    ({ s with antialias := b₁ } : ScaleLatentsInvocation).invoke context =
      ({ s with antialias := b₂ } : ScaleLatentsInvocation).invoke context := by
  have hrm : ¬ (r.mode = "bilinear" ∨ r.mode = "bicubic") := by
    rintro (h | h)
    · exact hr1 h
    · exact hr2 h
  have hsm : ¬ (s.mode = "bilinear" ∨ s.mode = "bicubic") := by
    rintro (h | h)
    · exact hs1 h
    · exact hs2 h
  constructor
  · simp [ResizeLatentsInvocation.invoke, hrm]
  · simp [ScaleLatentsInvocation.invoke, hsm]

/-- Witness for C9: `"nearest"` resize and `"area"` scale, antialias toggled. -/
theorem interpolate_antialias_independent_witness :
    ({ id := "n1", latents := { latents_name := "a", seed := some 1 },
       width := 512, height := 256, mode := "nearest",
       antialias := true } : ResizeLatentsInvocation).invoke
        { graph_execution_state_id := "sess", store := fun n => Tensor.base n [1, 4, 64, 64] } =
      ({ id := "n1", latents := { latents_name := "a", seed := some 1 },
         width := 512, height := 256, mode := "nearest",
         antialias := false } : ResizeLatentsInvocation).invoke
        { graph_execution_state_id := "sess", store := fun n => Tensor.base n [1, 4, 64, 64] } ∧
    ({ id := "n2", latents := { latents_name := "b", seed := none },
       scale_factor := 2, mode := "area",
       antialias := true } : ScaleLatentsInvocation).invoke
        { graph_execution_state_id := "sess", store := fun n => Tensor.base n [1, 4, 64, 64] } =
      ({ id := "n2", latents := { latents_name := "b", seed := none },
         scale_factor := 2, mode := "area",
         antialias := false } : ScaleLatentsInvocation).invoke
        { graph_execution_state_id := "sess", store := fun n => Tensor.base n [1, 4, 64, 64] } :=
  interpolate_antialias_independent
    { id := "n1", latents := { latents_name := "a", seed := some 1 },
      width := 512, height := 256, mode := "nearest", antialias := true }
    { id := "n2", latents := { latents_name := "b", seed := none },
      scale_factor := 2, mode := "area", antialias := true }
    { graph_execution_state_id := "sess", store := fun n => Tensor.base n [1, 4, 64, 64] }
    true false true false (by decide) (by decide) (by decide) (by decide)

/-- The tiling state of a VAE model. -/
structure VaeState where
  tiling : Bool
deriving DecidableEq, Repr

/-- `vae.enable_tiling()`. -/
def VaeState.enable_tiling (vae : VaeState) : VaeState := { vae with tiling := true }

/-- `vae.disable_tiling()`. -/
def VaeState.disable_tiling (vae : VaeState) : VaeState := { vae with tiling := false }

/-- The service configuration slice read by `LatentsToImageInvocation`. -/
structure AppConfig where
  tiled_decode : Bool
deriving DecidableEq, Repr

/-- The fields of `LatentsToImageInvocation` feeding its tiling decision. -/
structure LatentsToImageInvocation where
  id : String
  tiled : Bool
  fp32 : Bool
deriving DecidableEq, Repr

/-- The tiling step of `LatentsToImageInvocation.invoke`:
`if self.tiled or context.services.configuration.tiled_decode` enable, else
disable. -/
def LatentsToImageInvocation.configure_tiling (self : LatentsToImageInvocation)
    (config : AppConfig) (vae : VaeState) : VaeState :=
  if self.tiled || config.tiled_decode then vae.enable_tiling else vae.disable_tiling

/-- The fields of `ImageToLatentsInvocation` feeding its tiling decision. -/
structure ImageToLatentsInvocation where
  id : String
  tiled : Bool
  fp32 : Bool
deriving DecidableEq, Repr

/-- The tiling step of `ImageToLatentsInvocation.invoke`: only `self.tiled` is
consulted; the service configuration is not an input. -/
def ImageToLatentsInvocation.configure_tiling (self : ImageToLatentsInvocation)
    (vae : VaeState) : VaeState :=
  if self.tiled then vae.enable_tiling else vae.disable_tiling

/-- C7: VAE tiling policy — `LatentsToImageInvocation` enables tiling iff its
`tiled` flag or the configuration's `tiled_decode` flag is set;
`ImageToLatentsInvocation` enables tiling iff its own `tiled` flag alone is
set (its decision takes no configuration input). -/
theorem vae_tiling_policy (l2i : LatentsToImageInvocation)
    (i2l : ImageToLatentsInvocation) (config : AppConfig) (vae vae' : VaeState) :
    (l2i.configure_tiling config vae).tiling = (l2i.tiled || config.tiled_decode) ∧
    (i2l.configure_tiling vae').tiling = i2l.tiled := by
  constructor
  · rw [LatentsToImageInvocation.configure_tiling]
    cases hb : l2i.tiled || config.tiled_decode
    · simp [hb, VaeState.disable_tiling]
    · simp [hb, VaeState.enable_tiling]
  · rw [ImageToLatentsInvocation.configure_tiling]
    cases hb : i2l.tiled
    · simp [hb, VaeState.disable_tiling]
    · simp [hb, VaeState.enable_tiling]

/-- C8: every `LatentsOutput` built by `build_latents_output` — as by the
resize and scale invocations — reports width `8 *` the tensor's size in
dimension 3 and height `8 *` its size in dimension 2. -/
theorem latents_output_dims (name : String) (t : Tensor) (seed : Option ℤ)
    (r : ResizeLatentsInvocation) (s : ScaleLatentsInvocation)
    (context : InvocationContext) :
    ((build_latents_output name t seed).width = 8 * t.size.getD 3 0 ∧
     (build_latents_output name t seed).height = 8 * t.size.getD 2 0) ∧
    ((r.invoke context).2.width = 8 * (r.invoke context).1.value.size.getD 3 0 ∧
     (r.invoke context).2.height = 8 * (r.invoke context).1.value.size.getD 2 0) ∧
    ((s.invoke context).2.width = 8 * (s.invoke context).1.value.size.getD 3 0 ∧
     (s.invoke context).2.height = 8 * (s.invoke context).1.value.size.getD 2 0) := by
  refine ⟨⟨?_, ?_⟩, ⟨?_, ?_⟩, ⟨?_, ?_⟩⟩ <;>
    simp [build_latents_output, ResizeLatentsInvocation.invoke,
      ScaleLatentsInvocation.invoke, Nat.mul_comm]

/-- The seed and initial-latents resolution at the top of
`DenoiseLatentsInvocation.invoke`:
`seed = self.noise.seed` when a noise field is given, then
`seed = self.latents.seed` when still `None` and a latents field is given,
then `0`; the initial latents are the stored tensor when a latents field is
given, else `torch.zeros_like(noise)` — which raises when no noise was
fetched (`none`). -/
def resolve_seed_and_latents (noise_field latents_field : Option LatentsField)
    (store : String → Tensor) : Option (ℤ × Tensor) :=
  let noise : Option Tensor :=
    match noise_field with
    | some nf => some (store nf.latents_name)
    | none => none
  let seed : Option ℤ :=
    match noise_field with
    | some nf => nf.seed
    | none => none
  match latents_field with
  | some lf =>
    let latents := store lf.latents_name
    let seed : Option ℤ :=
      match seed with
      | none => lf.seed
      | some s => some s
    some (seed.getD 0, latents)
  | none =>
    match noise with
    | some n => some (seed.getD 0, Tensor.zeros_like n)
    | none => none

/-- C10 as stated is false: with a noise field provided (its seed `None`), the
resolved seed still depends on the latents field, so it is not "the noise
field's seed". -/
theorem denoise_seed_resolution_counterexample :
    (resolve_seed_and_latents (some { latents_name := "noise", seed := none })
        (some { latents_name := "lat", seed := some 5 })
        (fun n => Tensor.base n [1, 4, 64, 64])).map Prod.fst = some 5 ∧
    (resolve_seed_and_latents (some { latents_name := "noise", seed := none })
        (some { latents_name := "lat", seed := some 7 })
        (fun n => Tensor.base n [1, 4, 64, 64])).map Prod.fst = some 7 ∧
    (5 : ℤ) ≠ 7 :=
  ⟨rfl, rfl, by decide⟩

/-- C10 amended: the seed is the noise field's seed when that field is
provided with a non-`None` seed, otherwise the latents field's seed when that
field is provided with a non-`None` seed, otherwise `0`; the initial latents
are the stored latents when a latents field is provided, else an all-zeros
tensor shaped like the noise tensor, and with neither field the invocation
raises — so a noise field must be provided whenever the latents field is
absent. -/
theorem denoise_seed_latents_resolution (noise_field latents_field : Option LatentsField)
    (store : String → Tensor) :
    (resolve_seed_and_latents noise_field latents_field store).map Prod.fst =
      (match noise_field, latents_field with
       | none, none => none
       | _, _ =>
         some ((match noise_field.bind LatentsField.seed with
                | some s => some s
                | none => latents_field.bind LatentsField.seed).getD 0)) ∧
    (resolve_seed_and_latents noise_field latents_field store).map (fun r => r.2) =
      (match latents_field with
       | some lf => some (store lf.latents_name)
       | none => noise_field.map (fun nf => Tensor.zeros_like (store nf.latents_name))) ∧
    (∀ nf, latents_field = none → noise_field = some nf →
      (resolve_seed_and_latents noise_field latents_field store).map (fun r => r.2.size) =
        some (store nf.latents_name).size) := by
  cases noise_field with
  | none =>
    cases latents_field with
    | none => exact ⟨rfl, rfl, fun nf _ h2 => by cases h2⟩
    | some lf => exact ⟨rfl, rfl, fun nf h1 _ => by cases h1⟩
  | some nf =>
    cases latents_field with
    | none =>
      refine ⟨?_, rfl, fun nf' _ h2 => ?_⟩
      · cases hns : nf.seed <;>
          simp [resolve_seed_and_latents, hns]
      · cases h2
        rfl
    | some lf =>
      refine ⟨?_, rfl, fun nf' h1 _ => by cases h1⟩
      cases hns : nf.seed <;>
        simp [resolve_seed_and_latents, hns]

/-- Witness for C10's amended statement: a noise field with seed 3 and no
latents field. -/
theorem denoise_seed_latents_resolution_witness :
    (resolve_seed_and_latents (some { latents_name := "noise", seed := some 3 }) none
        (fun n => Tensor.base n [1, 4, 64, 64])).map Prod.fst = some 3 ∧
    (resolve_seed_and_latents (some { latents_name := "noise", seed := some 3 }) none
        (fun n => Tensor.base n [1, 4, 64, 64])).map (fun r => r.2) =
      some (Tensor.zeros_like (Tensor.base "noise" [1, 4, 64, 64])) ∧
    (resolve_seed_and_latents (some { latents_name := "noise", seed := some 3 }) none
        (fun n => Tensor.base n [1, 4, 64, 64])).map (fun r => r.2.size) =
      some (Tensor.base "noise" [1, 4, 64, 64]).size :=
  ⟨(denoise_seed_latents_resolution (some { latents_name := "noise", seed := some 3 }) none
      (fun n => Tensor.base n [1, 4, 64, 64])).1,
   (denoise_seed_latents_resolution (some { latents_name := "noise", seed := some 3 }) none
      (fun n => Tensor.base n [1, 4, 64, 64])).2.1,
   (denoise_seed_latents_resolution (some { latents_name := "noise", seed := some 3 }) none
      (fun n => Tensor.base n [1, 4, 64, 64])).2.2
     { latents_name := "noise", seed := some 3 } rfl rfl⟩

end InvokeAI
